import Mathlib

/-!
Verification of two built-in transformation functions of the
opentelemetry-collector-contrib transformation engine:

* `convertGaugeToSum` (processor/transformprocessor/internal/metrics),
  which rewrites a Gauge metric in the current datapoint context into a
  Sum metric with a chosen aggregation temporality and monotonicity flag;
* `DeleteKey` (pkg/ottl/ottlfuncs/func_delete_key.go), which removes a
  key from a map-typed value resolved by a target getter.

The pdata types (`pmetric.Metric`, `pcommon.Map`, ...) are externally
owned schema documents; they are embedded here with value semantics, and
the one place where Go reference semantics matters — the `pcommon.Map`
returned by a getter aliases storage inside the record — is made explicit
through a read/write pair on the context.
-/

namespace OtelTransform

/-- A primitive (non-map) pdata value, as carried by `pcommon.Value`. A
floating-point value is represented by its bit pattern: the code under
verification only ever copies such values, never computes with them. -/
inductive PVal where
  | str : String → PVal
  | intV : Int → PVal
  | boolV : Bool → PVal
  | doubleBits : Nat → PVal
deriving DecidableEq, Repr

/-- Model of `pcommon.Map`: an association list of string keys to
primitive values. The pdata API keeps keys unique; theorems that need
uniqueness state it as a hypothesis. -/
abbrev PMap := List (String × PVal)

/-- The keys of a `pcommon.Map`. -/
def PMap.keys (m : PMap) : List String := m.map Prod.fst

/-- Model of `pcommon.Map.Remove(key)`: removes the entry for `key`
(the first one, matching the Go implementation, which returns after the
first hit) and leaves every other entry in place. -/
def PMap.remove (m : PMap) (key : String) : PMap :=
  match m with
  | [] => []
  | (k, v) :: rest => if k = key then rest else (k, v) :: PMap.remove rest key

/-- The numeric payload of a `pmetric.NumberDataPoint`: an integer value
or a double, the latter kept as its bit pattern (it is only copied). -/
inductive NumberValue where
  | intValue : Int → NumberValue
  | doubleBits : Nat → NumberValue
deriving DecidableEq, Repr

/-- Model of `pmetric.NumberDataPoint`. -/
structure NumberDataPoint where
  attributes : PMap
  startTimestamp : Nat
  timestamp : Nat
  value : NumberValue
  flags : Nat
deriving DecidableEq, Repr

/-- Model of `pmetric.AggregationTemporality`. -/
inductive AggregationTemporality where
  | unspecified
  | delta
  | cumulative
deriving DecidableEq, Repr

/-- Model of `pmetric.HistogramDataPoint` (only what identity of the
payload needs; `convertGaugeToSum` never looks inside it). -/
structure HistogramDataPoint where
  attributes : PMap
  count : Nat
  bucketCounts : List Nat
deriving DecidableEq, Repr

/-- The oneof data payload of a `pmetric.Metric`, which also determines
`Metric.Type()`. -/
inductive MetricData where
  | empty
  | gauge : List NumberDataPoint → MetricData
  | sum : AggregationTemporality → Bool → List NumberDataPoint → MetricData
  | histogram : List HistogramDataPoint → MetricData
deriving DecidableEq, Repr

/-- Whether `Metric.Type() == pmetric.MetricTypeGauge`. -/
def MetricData.isGauge : MetricData → Bool
  | .gauge _ => true
  | _ => false

/-- Model of `pmetric.Metric`. -/
structure Metric where
  name : String
  description : String
  unit : String
  data : MetricData
deriving DecidableEq, Repr

/-- `metric.SetEmptySum()`: retags the metric as a Sum with default
fields — unspecified temporality, non-monotonic, no data points. The
previous payload (and with it all previous data points) is dropped. -/
def Metric.setEmptySum (m : Metric) : Metric :=
  ⟨m.name, m.description, m.unit, .sum .unspecified false []⟩

/-- `metric.Sum().SetAggregationTemporality(t)` (the metric is a Sum at
every call site; on any other shape this is the identity). -/
def Metric.setSumAggregationTemporality (m : Metric) (t : AggregationTemporality) : Metric :=
  match m.data with
  | .sum _ mono dps => ⟨m.name, m.description, m.unit, .sum t mono dps⟩
  | _ => m

/-- `metric.Sum().SetIsMonotonic(b)` (the metric is a Sum at every call
site; on any other shape this is the identity). -/
def Metric.setSumIsMonotonic (m : Metric) (b : Bool) : Metric :=
  match m.data with
  | .sum t _ dps => ⟨m.name, m.description, m.unit, .sum t b dps⟩
  | _ => m

/-- `dps.CopyTo(metric.Sum().DataPoints())`: overwrites the Sum data
point slice with a copy of `dps` (the destination is empty at the call
site, having just been created by `SetEmptySum`). -/
def Metric.setSumDataPoints (m : Metric) (dps : List NumberDataPoint) : Metric :=
  match m.data with
  | .sum t mono _ => ⟨m.name, m.description, m.unit, .sum t mono dps⟩
  | _ => m

/-- Model of `pcommon.InstrumentationScope`. -/
structure InstrumentationScope where
  name : String
  version : String
deriving DecidableEq, Repr

/-- Model of `pcommon.Resource`. -/
structure Resource where
  attributes : PMap
deriving DecidableEq, Repr

/-- Model of `ottldatapoints.TransformContext`: the data point under
evaluation, its parent metric, and the enclosing scope and resource. -/
structure TransformContext where
  dataPoint : NumberDataPoint
  metric : Metric
  il : InstrumentationScope
  resource : Resource
deriving DecidableEq, Repr

/-- `ctx.GetMetric()`. -/
def TransformContext.getMetric (c : TransformContext) : Metric := c.metric

/-- Replaces the metric of a context, the value-semantics rendering of
mutating the metric in place through the context. -/
def TransformContext.withMetric (c : TransformContext) (m : Metric) : TransformContext :=
  ⟨c.dataPoint, m, c.il, c.resource⟩

/-- The outcome of invoking a bound `ottl.ExprFunc[K]` on a context of
type `K`: the returned `interface{}` value, the returned `error`, and
the context state after the in-place mutations performed by the call. -/
structure ExprOut (K : Type) where
  value : Option PVal
  err : Option String
  ctx : K
deriving DecidableEq, Repr

/-- The closure built by `convertGaugeToSum` once the temporality
literal has been parsed. Mirrors the Go body statement by statement: if
the metric is not a Gauge, return `(nil, nil)` untouched; otherwise take
`dps := metric.Gauge().DataPoints()` (the snapshot that survives the
retagging), `SetEmptySum`, set temporality and monotonicity, then copy
the snapshot back into the new Sum. -/
def convertGaugeToSumFn (aggTemp : AggregationTemporality) (monotonic : Bool)
    (ctx : TransformContext) : ExprOut TransformContext :=
  let metric := ctx.getMetric
  match metric.data with
  | .gauge gaugeDps =>
      let dps := gaugeDps
      let m1 := metric.setEmptySum
      let m2 := m1.setSumAggregationTemporality aggTemp
      let m3 := m2.setSumIsMonotonic monotonic
      let m4 := m3.setSumDataPoints dps
      ⟨none, none, ctx.withMetric m4⟩
  | _ => ⟨none, none, ctx⟩

/-- Model of `convertGaugeToSum(stringAggTemp, monotonic)` from
processor/transformprocessor/internal/metrics: the switch over the
temporality literal yields a bind-time error for an unknown literal,
otherwise the bound closure. -/
def convertGaugeToSum (stringAggTemp : String) (monotonic : Bool) :
    Except String (TransformContext → ExprOut TransformContext) :=
  if stringAggTemp = "delta" then
    Except.ok (convertGaugeToSumFn .delta monotonic)
  else if stringAggTemp = "cumulative" then
    Except.ok (convertGaugeToSumFn .cumulative monotonic)
  else
    Except.error ("unknown aggregation temporality: " ++ stringAggTemp)

/-- What `target.Get(ctx)` hands to `DeleteKey`: either a `pcommon.Map`
(which in Go aliases storage inside the context) or some value of
another dynamic type, for which the `val.(pcommon.Map)` type assertion
fails. -/
inductive GoValue where
  | mapRef
  | other : PVal → GoValue
deriving DecidableEq, Repr

/-- Model of an `ottl.Getter[K]` as used by `DeleteKey`. `get` renders
`Get(ctx) (interface{}, error)`: an error, a nil value, or a value. When
the value is a `pcommon.Map` it aliases a map inside the context:
`readMap` is the map it denotes and `writeMap` is the write-back of a
mutation of that map into the context. -/
structure TargetGetter (K : Type) where
  get : K → Except String (Option GoValue)
  readMap : K → PMap
  writeMap : K → PMap → K

/-- The closure built by `DeleteKey`. Mirrors the Go body: propagate a
resolution error; a nil value is a silent no-op; a `pcommon.Map` value
has `key` removed in place; any other dynamic type is a no-op. The
return value is nil on every non-error path. -/
def deleteKeyFn {K : Type} (target : TargetGetter K) (key : String)
    (ctx : K) : ExprOut K :=
  match target.get ctx with
  | .error e => ⟨none, some e, ctx⟩
  | .ok none => ⟨none, none, ctx⟩
  | .ok (some .mapRef) =>
      ⟨none, none, target.writeMap ctx (PMap.remove (target.readMap ctx) key)⟩
  | .ok (some (.other _)) => ⟨none, none, ctx⟩

/-- Model of `DeleteKey[K](target, key)` from
pkg/ottl/ottlfuncs/func_delete_key.go: the constructor unconditionally
returns the bound closure and a nil error. -/
def DeleteKey {K : Type} (target : TargetGetter K) (key : String) :
    Except String (K → ExprOut K) :=
  Except.ok (deleteKeyFn target key)

/-! ### Helper lemmas about `PMap.remove` -/

/-- Removing an absent key is the identity. -/
theorem PMap.remove_of_not_mem (m : PMap) (key : String)
    (h : key ∉ PMap.keys m) : PMap.remove m key = m := by
  induction m with
  | nil => rfl
  | cons kv rest ih =>
      obtain ⟨k, v⟩ := kv
      simp only [PMap.keys, List.map_cons, List.mem_cons] at h
      push_neg at h
      simp only [PMap.remove, if_neg (Ne.symm h.1)]
      exact congrArg _ (ih h.2)

/-- With unique keys, removal is exactly the filter keeping every entry
whose key differs: the entry for `key` goes, all others stay in order. -/
theorem PMap.remove_eq_filter (m : PMap) (key : String)
    (h : (PMap.keys m).Nodup) :
    PMap.remove m key = m.filter (fun p => p.fst ≠ key) := by
  induction m with
  | nil => rfl
  | cons kv rest ih =>
      obtain ⟨k, v⟩ := kv
      simp only [PMap.keys, List.map_cons, List.nodup_cons] at h
      by_cases hk : k = key
      · subst hk
        have hrest : List.filter (fun p => !decide (p.fst = k)) rest = rest := by
          apply List.filter_eq_self.mpr
          intro p hp
          simp only [Bool.not_eq_true', decide_eq_false_iff_not]
          intro hkey
          exact h.1 (hkey ▸ List.mem_map_of_mem Prod.fst hp)
        simp [PMap.remove, hrest]
      · simp [PMap.remove, hk, ih h.2, Ne.symm hk]

/-- With unique keys, the removed key is absent afterwards. -/
theorem PMap.not_mem_keys_remove (m : PMap) (key : String)
    (h : (PMap.keys m).Nodup) : key ∉ PMap.keys (PMap.remove m key) := by
  rw [PMap.remove_eq_filter m key h]
  intro hmem
  simp only [PMap.keys, List.mem_map] at hmem
  obtain ⟨p, hp, hfst⟩ := hmem
  rw [List.mem_filter] at hp
  exact absurd hfst (by simpa using hp.2)

/-! ### Helper lemmas about `convertGaugeToSum` -/

/-- On a context whose metric is not a Gauge, the closure returns
`(nil, nil)` and leaves the context untouched. -/
theorem convertGaugeToSumFn_not_gauge (t : AggregationTemporality) (mono : Bool)
    (ctx : TransformContext) (h : ctx.metric.data.isGauge = false) :
    convertGaugeToSumFn t mono ctx = ⟨none, none, ctx⟩ := by
  cases hd : ctx.metric.data with
  | gauge dps => rw [hd] at h; simp [MetricData.isGauge] at h
  | empty => simp [convertGaugeToSumFn, TransformContext.getMetric, hd]
  | sum t0 b0 dps => simp [convertGaugeToSumFn, TransformContext.getMetric, hd]
  | histogram hdps => simp [convertGaugeToSumFn, TransformContext.getMetric, hd]

/-- On a context whose metric is a Gauge with points `dps`, the closure
returns `(nil, nil)` and replaces the metric payload with a Sum of the
requested temporality and monotonicity holding exactly `dps`, keeping
name, description and unit. -/
theorem convertGaugeToSumFn_gauge (t : AggregationTemporality) (mono : Bool)
    (ctx : TransformContext) (dps : List NumberDataPoint)
    (h : ctx.metric.data = MetricData.gauge dps) :
    convertGaugeToSumFn t mono ctx =
      ⟨none, none, ctx.withMetric
        ⟨ctx.metric.name, ctx.metric.description, ctx.metric.unit,
          MetricData.sum t mono dps⟩⟩ := by
  simp [convertGaugeToSumFn, TransformContext.getMetric, h,
    Metric.setEmptySum, Metric.setSumAggregationTemporality,
    Metric.setSumIsMonotonic, Metric.setSumDataPoints]

/-- The only closures the constructor can hand out: one for each
recognized temporality literal. -/
theorem convertGaugeToSum_ok_cases (s : String) (mono : Bool)
    (f : TransformContext → ExprOut TransformContext)
    (hf : convertGaugeToSum s mono = Except.ok f) :
    (s = "delta" ∧ f = convertGaugeToSumFn .delta mono) ∨
    (s = "cumulative" ∧ f = convertGaugeToSumFn .cumulative mono) := by
  by_cases h1 : s = "delta"
  · subst h1
    have hv : convertGaugeToSum "delta" mono
        = Except.ok (convertGaugeToSumFn .delta mono) := rfl
    rw [hv] at hf
    injection hf with hf
    exact Or.inl ⟨rfl, hf.symm⟩
  · by_cases h2 : s = "cumulative"
    · subst h2
      have hv : convertGaugeToSum "cumulative" mono
          = Except.ok (convertGaugeToSumFn .cumulative mono) := rfl
      rw [hv] at hf
      injection hf with hf
      exact Or.inr ⟨rfl, hf.symm⟩
    · simp [convertGaugeToSum, h1, h2] at hf

/-! ### Sample data for witnesses -/

/-- A concrete data point. -/
def sampleDp1 : NumberDataPoint :=
  ⟨[("a", PVal.intV 1)], 0, 5, NumberValue.intValue 3, 0⟩

/-- A second concrete data point. -/
def sampleDp2 : NumberDataPoint :=
  ⟨[], 1, 6, NumberValue.doubleBits 42, 0⟩

/-- A concrete context whose metric is a Gauge with two points. -/
def sampleGaugeCtx : TransformContext :=
  ⟨sampleDp1,
   ⟨"m", "d", "u", MetricData.gauge [sampleDp1, sampleDp2]⟩,
   ⟨"s", "v"⟩, ⟨[("r", PVal.str "x")]⟩⟩

/-- A concrete context whose metric is a Sum (not a Gauge). -/
def sampleSumCtx : TransformContext :=
  ⟨sampleDp1,
   ⟨"m", "d", "u",
    MetricData.sum AggregationTemporality.delta false [sampleDp1]⟩,
   ⟨"s", "v"⟩, ⟨[]⟩⟩

/-! ### Claims about `convertGaugeToSum` -/

/-- Claim C1: binding convert-gauge-to-sum with literal "cumulative" and
monotonic = true succeeds, and on a context whose metric is a Gauge with
points `dps` the bound closure returns nil value and nil error and turns
the metric into a Sum with IsMonotonic = true, Cumulative temporality,
and exactly the original points in value and order (the snapshot taken
before the retagging is what survives into the Sum). -/
theorem c1_convert_cumulative_gauge (ctx : TransformContext)
    (dps : List NumberDataPoint)
    (h : ctx.metric.data = MetricData.gauge dps) :
    ∃ f, convertGaugeToSum "cumulative" true = Except.ok f ∧
      (f ctx).value = none ∧ (f ctx).err = none ∧
      (f ctx).ctx.metric.data =
        MetricData.sum AggregationTemporality.cumulative true dps := by
  have hg := convertGaugeToSumFn_gauge .cumulative true ctx dps h
  exact ⟨convertGaugeToSumFn .cumulative true, rfl,
    by rw [hg], by rw [hg], by rw [hg]; rfl⟩

/-- Witness for C1 at a concrete Gauge context with two data points. -/
theorem c1_witness :
    sampleGaugeCtx.metric.data = MetricData.gauge [sampleDp1, sampleDp2] ∧
    (∃ f, convertGaugeToSum "cumulative" true = Except.ok f ∧
      (f sampleGaugeCtx).value = none ∧ (f sampleGaugeCtx).err = none ∧
      (f sampleGaugeCtx).ctx.metric.data =
        MetricData.sum AggregationTemporality.cumulative true
          [sampleDp1, sampleDp2]) :=
  ⟨rfl, c1_convert_cumulative_gauge sampleGaugeCtx [sampleDp1, sampleDp2] rfl⟩

/-- Claim C3: for every temporality literal other than "delta" and
"cumulative", `convertGaugeToSum` fails at bind time with a nil
function, so the closure is never constructed; for "delta" and
"cumulative" it returns a closure and a nil error. -/
theorem c3_convert_bind_validation (s : String) (mono : Bool)
    (h1 : s ≠ "delta") (h2 : s ≠ "cumulative") :
    convertGaugeToSum s mono =
        Except.error ("unknown aggregation temporality: " ++ s) ∧
    convertGaugeToSum "delta" mono =
        Except.ok (convertGaugeToSumFn AggregationTemporality.delta mono) ∧
    convertGaugeToSum "cumulative" mono =
        Except.ok (convertGaugeToSumFn AggregationTemporality.cumulative mono) := by
  refine ⟨?_, rfl, rfl⟩
  simp [convertGaugeToSum, h1, h2]

/-- Witness for C3 at the concrete unknown literal "weird". -/
theorem c3_witness :
    ("weird" ≠ "delta" ∧ "weird" ≠ "cumulative") ∧
    (convertGaugeToSum "weird" true =
        Except.error ("unknown aggregation temporality: " ++ "weird") ∧
     convertGaugeToSum "delta" true =
        Except.ok (convertGaugeToSumFn AggregationTemporality.delta true) ∧
     convertGaugeToSum "cumulative" true =
        Except.ok (convertGaugeToSumFn AggregationTemporality.cumulative true)) :=
  ⟨⟨by decide, by decide⟩,
   c3_convert_bind_validation "weird" true (by decide) (by decide)⟩

/-- Claim C4: every closure handed out by `convertGaugeToSum`, invoked
on a context whose metric is not a Gauge, returns the pair
(nil, nil) — nil value, nil error — and leaves the context unchanged. -/
theorem c4_convert_non_gauge_skip (s : String) (mono : Bool)
    (f : TransformContext → ExprOut TransformContext)
    (hf : convertGaugeToSum s mono = Except.ok f)
    (ctx : TransformContext) (h : ctx.metric.data.isGauge = false) :
    f ctx = ⟨none, none, ctx⟩ := by
  rcases convertGaugeToSum_ok_cases s mono f hf with ⟨-, rfl⟩ | ⟨-, rfl⟩ <;>
    exact convertGaugeToSumFn_not_gauge _ _ _ h

/-- Witness for C4 at a concrete Sum-typed context. -/
theorem c4_witness :
    (convertGaugeToSum "delta" true =
        Except.ok (convertGaugeToSumFn AggregationTemporality.delta true) ∧
     sampleSumCtx.metric.data.isGauge = false) ∧
    convertGaugeToSumFn AggregationTemporality.delta true sampleSumCtx =
      ⟨none, none, sampleSumCtx⟩ :=
  ⟨⟨rfl, rfl⟩, c4_convert_non_gauge_skip "delta" true _ rfl sampleSumCtx rfl⟩

/-- Claim C8: on a Gauge metric, every closure handed out by
`convertGaugeToSum` returns (nil, nil) and mutates only the metric's
data payload: the metric's name, description and unit, and the other
parts of the context — data point, scope, resource — are unchanged. -/
theorem c8_convert_gauge_frame (s : String) (mono : Bool)
    (f : TransformContext → ExprOut TransformContext)
    (hf : convertGaugeToSum s mono = Except.ok f)
    (ctx : TransformContext) (dps : List NumberDataPoint)
    (h : ctx.metric.data = MetricData.gauge dps) :
    (f ctx).value = none ∧ (f ctx).err = none ∧
    (f ctx).ctx.metric.name = ctx.metric.name ∧
    (f ctx).ctx.metric.description = ctx.metric.description ∧
    (f ctx).ctx.metric.unit = ctx.metric.unit ∧
    (f ctx).ctx.dataPoint = ctx.dataPoint ∧
    (f ctx).ctx.il = ctx.il ∧
    (f ctx).ctx.resource = ctx.resource := by
  rcases convertGaugeToSum_ok_cases s mono f hf with ⟨-, rfl⟩ | ⟨-, rfl⟩ <;>
    rw [convertGaugeToSumFn_gauge _ _ _ _ h] <;>
    exact ⟨rfl, rfl, rfl, rfl, rfl, rfl, rfl, rfl⟩

/-- Witness for C8 at a concrete Gauge context. -/
theorem c8_witness :
    (convertGaugeToSum "delta" false =
        Except.ok (convertGaugeToSumFn AggregationTemporality.delta false) ∧
     sampleGaugeCtx.metric.data = MetricData.gauge [sampleDp1, sampleDp2]) ∧
    ((convertGaugeToSumFn AggregationTemporality.delta false sampleGaugeCtx).value = none ∧
     (convertGaugeToSumFn AggregationTemporality.delta false sampleGaugeCtx).err = none ∧
     (convertGaugeToSumFn AggregationTemporality.delta false sampleGaugeCtx).ctx.metric.name =
       sampleGaugeCtx.metric.name ∧
     (convertGaugeToSumFn AggregationTemporality.delta false sampleGaugeCtx).ctx.metric.description =
       sampleGaugeCtx.metric.description ∧
     (convertGaugeToSumFn AggregationTemporality.delta false sampleGaugeCtx).ctx.metric.unit =
       sampleGaugeCtx.metric.unit ∧
     (convertGaugeToSumFn AggregationTemporality.delta false sampleGaugeCtx).ctx.dataPoint =
       sampleGaugeCtx.dataPoint ∧
     (convertGaugeToSumFn AggregationTemporality.delta false sampleGaugeCtx).ctx.il =
       sampleGaugeCtx.il ∧
     (convertGaugeToSumFn AggregationTemporality.delta false sampleGaugeCtx).ctx.resource =
       sampleGaugeCtx.resource) :=
  ⟨⟨rfl, rfl⟩,
   c8_convert_gauge_frame "delta" false _ rfl sampleGaugeCtx [sampleDp1, sampleDp2] rfl⟩

/-! ### Helper lemmas and sample getters for `DeleteKey` -/

/-- The constructor hands out exactly the closure `deleteKeyFn`. -/
theorem DeleteKey_ok_elim {K : Type} (target : TargetGetter K) (key : String)
    (f : K → ExprOut K) (hf : DeleteKey target key = Except.ok f) :
    f = deleteKeyFn target key := by
  unfold DeleteKey at hf
  injection hf with hf
  exact hf.symm

/-- A getter over a bare-map context that resolves to that map; reading
and writing the aliased map are the identity on the context. -/
def mapTarget : TargetGetter PMap :=
  ⟨fun _ => Except.ok (some GoValue.mapRef), fun c => c, fun _ m => m⟩

/-- A getter whose resolution always fails. -/
def errTarget : TargetGetter PMap :=
  ⟨fun _ => Except.error "resolution failed", fun c => c, fun _ m => m⟩

/-- A getter resolving to a nil value with a nil error. -/
def nilTarget : TargetGetter PMap :=
  ⟨fun _ => Except.ok none, fun c => c, fun _ m => m⟩

/-- A getter resolving to a non-map string value. -/
def strTarget : TargetGetter PMap :=
  ⟨fun _ => Except.ok (some (GoValue.other (PVal.str "scalar"))),
   fun c => c, fun _ m => m⟩

/-- A concrete map holding the key "k" and one other entry. -/
def sampleMap : PMap := [("k", PVal.intV 1), ("b", PVal.boolV true)]

/-! ### Claims about `DeleteKey` -/

/-- Claim C2: when the target getter resolves without error to a map
(with unique keys) containing `key`, the bound closure removes exactly
that key — the resulting map is the original with precisely the entry
for `key` filtered out, every other pair untouched — and returns a nil
value and a nil error. `hrw` states that reading back the aliased map
after the write-back yields the written map, the value-level rendering
of the Go aliasing between the resolved `pcommon.Map` and the record. -/
theorem c2_DeleteKey_removes_only_key {K : Type} (target : TargetGetter K)
    (key : String) (f : K → ExprOut K)
    (hf : DeleteKey target key = Except.ok f) (ctx : K)
    (hres : target.get ctx = Except.ok (some GoValue.mapRef))
    (hmem : key ∈ PMap.keys (target.readMap ctx))
    (hnodup : (PMap.keys (target.readMap ctx)).Nodup)
    (hrw : ∀ m, target.readMap (target.writeMap ctx m) = m) :
    (f ctx).value = none ∧ (f ctx).err = none ∧
    target.readMap (f ctx).ctx =
      (target.readMap ctx).filter (fun p => p.fst ≠ key) := by
  have hstep : deleteKeyFn target key ctx =
      ⟨none, none, target.writeMap ctx (PMap.remove (target.readMap ctx) key)⟩ := by
    simp [deleteKeyFn, hres]
  rw [DeleteKey_ok_elim target key f hf, hstep]
  exact ⟨rfl, rfl, by rw [hrw, PMap.remove_eq_filter _ _ hnodup]⟩

/-- Witness for C2 on a concrete two-entry map containing "k". -/
theorem c2_witness :
    (mapTarget.get sampleMap = Except.ok (some GoValue.mapRef) ∧
     "k" ∈ PMap.keys (mapTarget.readMap sampleMap) ∧
     (PMap.keys (mapTarget.readMap sampleMap)).Nodup) ∧
    ((deleteKeyFn mapTarget "k" sampleMap).value = none ∧
     (deleteKeyFn mapTarget "k" sampleMap).err = none ∧
     mapTarget.readMap (deleteKeyFn mapTarget "k" sampleMap).ctx =
       (mapTarget.readMap sampleMap).filter (fun p => p.fst ≠ "k")) :=
  ⟨⟨rfl, by decide, by decide⟩,
   c2_DeleteKey_removes_only_key mapTarget "k" _ rfl sampleMap rfl
     (by decide) (by decide) (fun m => rfl)⟩

/-- Claim C5: when the target getter fails with error `e`, the bound
closure returns that very error with a nil value and performs no
mutation of the record. -/
theorem c5_DeleteKey_propagates_error {K : Type} (target : TargetGetter K)
    (key : String) (f : K → ExprOut K)
    (hf : DeleteKey target key = Except.ok f) (ctx : K) (e : String)
    (hres : target.get ctx = Except.error e) :
    f ctx = ⟨none, some e, ctx⟩ := by
  rw [DeleteKey_ok_elim target key f hf]
  simp [deleteKeyFn, hres]

/-- Witness for C5 with a concretely failing getter. -/
theorem c5_witness :
    errTarget.get sampleMap = Except.error "resolution failed" ∧
    deleteKeyFn errTarget "k" sampleMap =
      ⟨none, some "resolution failed", sampleMap⟩ :=
  ⟨rfl, c5_DeleteKey_propagates_error errTarget "k" _ rfl sampleMap
    "resolution failed" rfl⟩

/-- Claim C6: when the target getter resolves without error to a
non-nil value that is not map-typed, the bound closure is a no-op: nil
value, nil error, context untouched. -/
theorem c6_DeleteKey_non_map_noop {K : Type} (target : TargetGetter K)
    (key : String) (f : K → ExprOut K)
    (hf : DeleteKey target key = Except.ok f) (ctx : K) (v : PVal)
    (hres : target.get ctx = Except.ok (some (GoValue.other v))) :
    f ctx = ⟨none, none, ctx⟩ := by
  rw [DeleteKey_ok_elim target key f hf]
  simp [deleteKeyFn, hres]

/-- Witness for C6 with a getter resolving to a string value. -/
theorem c6_witness :
    strTarget.get sampleMap =
      Except.ok (some (GoValue.other (PVal.str "scalar"))) ∧
    deleteKeyFn strTarget "k" sampleMap = ⟨none, none, sampleMap⟩ :=
  ⟨rfl, c6_DeleteKey_non_map_noop strTarget "k" _ rfl sampleMap
    (PVal.str "scalar") rfl⟩

/-- Claim C9: when the target getter resolves to a nil value with a nil
error, the bound closure returns (nil, nil) without attempting any key
removal and without mutating the record. -/
theorem c9_DeleteKey_nil_noop {K : Type} (target : TargetGetter K)
    (key : String) (f : K → ExprOut K)
    (hf : DeleteKey target key = Except.ok f) (ctx : K)
    (hres : target.get ctx = Except.ok none) :
    f ctx = ⟨none, none, ctx⟩ := by
  rw [DeleteKey_ok_elim target key f hf]
  simp [deleteKeyFn, hres]

/-- Witness for C9 with a getter resolving to nil. -/
theorem c9_witness :
    nilTarget.get sampleMap = Except.ok none ∧
    deleteKeyFn nilTarget "k" sampleMap = ⟨none, none, sampleMap⟩ :=
  ⟨rfl, c9_DeleteKey_nil_noop nilTarget "k" _ rfl sampleMap rfl⟩

/-- Claim C10: for every target getter and key, the `DeleteKey`
constructor succeeds: it returns the bound closure with a nil error, so
binding delete-key can never produce a bind-time error. -/
theorem c10_DeleteKey_bind_never_fails {K : Type} (target : TargetGetter K)
    (key : String) :
    ∃ f, DeleteKey target key = Except.ok f :=
  ⟨deleteKeyFn target key, rfl⟩

/-! ### Idempotence -/

/-- Invoking the convert closure on the state left by a first
invocation is a no-op: the first invocation leaves a non-Gauge metric
(a Sum, or whatever non-Gauge shape was already there). -/
theorem convertGaugeToSumFn_idem (t : AggregationTemporality) (mono : Bool)
    (ctx : TransformContext) :
    convertGaugeToSumFn t mono ((convertGaugeToSumFn t mono ctx).ctx) =
      ⟨none, none, (convertGaugeToSumFn t mono ctx).ctx⟩ := by
  cases hd : ctx.metric.data with
  | gauge dps =>
      rw [convertGaugeToSumFn_gauge t mono ctx dps hd]
      exact convertGaugeToSumFn_not_gauge t mono _ rfl
  | empty =>
      rw [convertGaugeToSumFn_not_gauge t mono ctx (by rw [hd]; rfl)]
      exact convertGaugeToSumFn_not_gauge t mono ctx (by rw [hd]; rfl)
  | sum t0 b0 dps =>
      rw [convertGaugeToSumFn_not_gauge t mono ctx (by rw [hd]; rfl)]
      exact convertGaugeToSumFn_not_gauge t mono ctx (by rw [hd]; rfl)
  | histogram hdps =>
      rw [convertGaugeToSumFn_not_gauge t mono ctx (by rw [hd]; rfl)]
      exact convertGaugeToSumFn_not_gauge t mono ctx (by rw [hd]; rfl)

/-- Invoking the delete-key closure a second time leaves the state of
the first invocation unchanged, provided the getter has lawful aliasing
(read-after-write, write-after-write, get unaffected by the write-back)
and the resolved map has unique keys. -/
theorem deleteKeyFn_state_idem {K : Type} (target : TargetGetter K)
    (key : String) (kctx : K)
    (hnodup : (PMap.keys (target.readMap kctx)).Nodup)
    (hrw : ∀ c m, target.readMap (target.writeMap c m) = m)
    (hww : ∀ c m1 m2,
      target.writeMap (target.writeMap c m1) m2 = target.writeMap c m2)
    (hgw : ∀ c m, target.get (target.writeMap c m) = target.get c) :
    (deleteKeyFn target key ((deleteKeyFn target key kctx).ctx)).ctx =
      (deleteKeyFn target key kctx).ctx := by
  cases hres : target.get kctx with
  | error e => simp [deleteKeyFn, hres]
  | ok v =>
      cases v with
      | none => simp [deleteKeyFn, hres]
      | some gv =>
          cases gv with
          | other pv => simp [deleteKeyFn, hres]
          | mapRef =>
              have h1 : deleteKeyFn target key kctx =
                  ⟨none, none,
                   target.writeMap kctx
                     (PMap.remove (target.readMap kctx) key)⟩ := by
                simp [deleteKeyFn, hres]
              rw [h1]
              have h2 : target.get
                  (target.writeMap kctx
                    (PMap.remove (target.readMap kctx) key)) =
                  Except.ok (some GoValue.mapRef) := by rw [hgw, hres]
              simp only [deleteKeyFn, h2]
              rw [hrw,
                PMap.remove_of_not_mem _ _
                  (PMap.not_mem_keys_remove _ _ hnodup),
                hww]

/-- Claim C7: re-invoking the bound built-ins on a record already in
its target state is idempotent. A metric already converted to Sum is
left unchanged by the convert closure with no error, and invoking the
convert closure twice yields the same final context as invoking it
once, again with no error. A map target no longer containing the key is
left unchanged by the delete-key closure with no error, and invoking
the delete-key closure twice yields the same final context as invoking
it once. The `h*` getter laws state lawful aliasing between the
resolved map and the record. -/
theorem c7_builtins_idempotent {K : Type} (s : String) (mono : Bool)
    (f : TransformContext → ExprOut TransformContext)
    (hf : convertGaugeToSum s mono = Except.ok f)
    (mctx : TransformContext) (t : AggregationTemporality) (b : Bool)
    (dps : List NumberDataPoint)
    (hsum : mctx.metric.data = MetricData.sum t b dps)
    (mctx2 : TransformContext)
    (target : TargetGetter K) (key : String) (g : K → ExprOut K)
    (hg : DeleteKey target key = Except.ok g)
    (kctx : K)
    (hres : target.get kctx = Except.ok (some GoValue.mapRef))
    (hnot : key ∉ PMap.keys (target.readMap kctx))
    (kctx2 : K)
    (hnodup2 : (PMap.keys (target.readMap kctx2)).Nodup)
    (hrw : ∀ c m, target.readMap (target.writeMap c m) = m)
    (hww : ∀ c m1 m2,
      target.writeMap (target.writeMap c m1) m2 = target.writeMap c m2)
    (hwr : ∀ c, target.writeMap c (target.readMap c) = c)
    (hgw : ∀ c m, target.get (target.writeMap c m) = target.get c) :
    f mctx = ⟨none, none, mctx⟩ ∧
    (f (f mctx2).ctx).ctx = (f mctx2).ctx ∧
    (f (f mctx2).ctx).err = none ∧
    g kctx = ⟨none, none, kctx⟩ ∧
    (g (g kctx2).ctx).ctx = (g kctx2).ctx := by
  have hgfn := DeleteKey_ok_elim target key g hg
  subst hgfn
  have hdel : deleteKeyFn target key kctx = ⟨none, none, kctx⟩ := by
    simp only [deleteKeyFn, hres]
    rw [PMap.remove_of_not_mem _ _ hnot, hwr]
  obtain ⟨-, rfl⟩ | ⟨-, rfl⟩ := convertGaugeToSum_ok_cases s mono f hf <;>
    exact ⟨convertGaugeToSumFn_not_gauge _ _ _ (by rw [hsum]; rfl),
      by rw [convertGaugeToSumFn_idem],
      by rw [convertGaugeToSumFn_idem],
      hdel,
      deleteKeyFn_state_idem target key kctx2 hnodup2 hrw hww hgw⟩

/-- A concrete map without the key "k". -/
def sampleMapNoK : PMap := [("b", PVal.boolV true)]

/-- Witness for C7: a Sum-typed metric context, a Gauge context for the
twice-equals-once part, a map without "k", and a map with unique keys,
all under the identity-lens getter `mapTarget`. -/
theorem c7_witness :
    (sampleSumCtx.metric.data =
       MetricData.sum AggregationTemporality.delta false [sampleDp1] ∧
     mapTarget.get sampleMapNoK = Except.ok (some GoValue.mapRef) ∧
     "k" ∉ PMap.keys (mapTarget.readMap sampleMapNoK) ∧
     (PMap.keys (mapTarget.readMap sampleMap)).Nodup) ∧
    (convertGaugeToSumFn AggregationTemporality.cumulative true sampleSumCtx =
       ⟨none, none, sampleSumCtx⟩ ∧
     (convertGaugeToSumFn AggregationTemporality.cumulative true
        ((convertGaugeToSumFn AggregationTemporality.cumulative true
           sampleGaugeCtx).ctx)).ctx =
       (convertGaugeToSumFn AggregationTemporality.cumulative true
          sampleGaugeCtx).ctx ∧
     (convertGaugeToSumFn AggregationTemporality.cumulative true
        ((convertGaugeToSumFn AggregationTemporality.cumulative true
           sampleGaugeCtx).ctx)).err = none ∧
     deleteKeyFn mapTarget "k" sampleMapNoK = ⟨none, none, sampleMapNoK⟩ ∧
     (deleteKeyFn mapTarget "k"
        ((deleteKeyFn mapTarget "k" sampleMap).ctx)).ctx =
       (deleteKeyFn mapTarget "k" sampleMap).ctx) :=
  ⟨⟨rfl, rfl, by decide, by decide⟩,
   c7_builtins_idempotent "cumulative" true
     (convertGaugeToSumFn AggregationTemporality.cumulative true) rfl
     sampleSumCtx AggregationTemporality.delta false [sampleDp1] rfl
     sampleGaugeCtx mapTarget "k" (deleteKeyFn mapTarget "k") rfl
     sampleMapNoK rfl (by decide) sampleMap (by decide)
     (fun _ m => rfl) (fun _ _ m2 => rfl) (fun c => rfl) (fun _ _ => rfl)⟩

end OtelTransform
